import Mathlib

/-!
Verification of the content-tag preprocessor core: a shallow embedding of the
AST-rewrite pipeline implemented in `src/src/transform.rs`, `src/src/lib.rs`
and `src/src/bindings.rs` of the repository, together with theorems settling
the specification's claims about it.

The swc AST fragment that the pipeline inspects or produces is embedded as a
closed family of tagged variants.  Recursive node sequences are given by
specialized list types (`ExprList`, `StmtList`, `ClassMemberList`) so that
every function over the tree is structurally recursive and evaluable.
Machine-level concerns (interned atoms, spans as `BytePos` pairs, `Box`
indirection, `ExprOrSpread` wrappers — no spread ever occurs in this code)
are flattened away; strings stand for identifiers and atoms, `Nat` pairs for
spans.
-/

namespace ContentTag

/-- A source span (swc `Span`): low/high character offsets. -/
structure Span where
  lo : Nat
  hi : Nat
deriving DecidableEq, Repr

/-- swc `ContentTagContent`: the raw text between the delimiters, with its span. -/
structure ContentTagContent where
  span : Span
  value : String
deriving DecidableEq, Repr

/-- An opening or closing delimiter of a content tag (only its span is used). -/
structure TagDelim where
  span : Span
deriving DecidableEq, Repr

/-- swc `ContentTagExpression`: an expression-position template occurrence.
`tagName`/`tagType` carry the tag classification used by the locate pass. -/
structure ContentTagExpression where
  span : Span
  opening : TagDelim
  contents : ContentTagContent
  closing : TagDelim
  tagName : String
  tagType : String
deriving DecidableEq, Repr

/-- swc `TplElement`: one quasi of a template literal. -/
structure TplElement where
  span : Span
  cooked : Option String
  raw : String
  tail : Bool
deriving DecidableEq, Repr

/-- A member of the scope-capture object literal built by `crate::snippets`
(see `scope_params` below): the `eval` trampoline method, or the
`component: this` entry added in class-member position. -/
inductive ScopeMember where
  | evalTrampoline
  | component
deriving DecidableEq, Repr

/-- swc `ModuleExportName`: the imported name of a specifier, as an
identifier or a string literal. -/
inductive ModuleExportName where
  | ident (sym : String)
  | str (value : String)
deriving DecidableEq, Repr

/-- swc `ImportNamedSpecifier`; `localName` embeds the `local` field
(`local` is a Lean keyword). -/
structure ImportNamedSpecifier where
  localName : String
  imported : Option ModuleExportName
  isTypeOnly : Bool
deriving DecidableEq, Repr

/-- swc `ImportSpecifier`. -/
inductive ImportSpecifier where
  | named (s : ImportNamedSpecifier)
  | defaultSpec (localName : String)
  | namespaceSpec (localName : String)
deriving DecidableEq, Repr

/-- swc `ImportDecl` (the `asserts` field, always `None` here, is omitted). -/
structure ImportDecl where
  src : String
  specifiers : List ImportSpecifier
  typeOnly : Bool
deriving DecidableEq, Repr

mutual

/-- The expression fragment the rewriter traverses or produces.  Call
arguments are plain expressions (`ExprOrSpread` with no spread). `strLit`
stands for any atomic expression with no visitable children. -/
inductive Expr where
  | ident (name : String)
  | call (span : Span) (callee : Expr) (args : ExprList)
  | tpl (span : Span) (quasis : List TplElement)
  | contentTagExpression (e : ContentTagExpression)
  | scopeObject (span : Span) (members : List ScopeMember)
  | classExpr (members : ClassMemberList)
  | strLit (value : String)

/-- A sequence of expressions (call arguments). -/
inductive ExprList where
  | nil
  | cons (e : Expr) (es : ExprList)

/-- swc `ClassMember`, restricted to the shapes the rewriter distinguishes:
a class-member-position occurrence (`ContentTagMember`), a static
initializer block, and any other member carrying an optional value
expression. -/
inductive ClassMember where
  | contentTagMember (span : Span) (opening : TagDelim) (contents : ContentTagContent)
      (closing : TagDelim) (tagName : String) (tagType : String)
  | staticBlock (span : Span) (bodySpan : Span) (stmts : StmtList)
  | propMember (name : String) (value : Option Expr)

/-- A sequence of class members. -/
inductive ClassMemberList where
  | nil
  | cons (m : ClassMember) (ms : ClassMemberList)

/-- swc `Stmt`, restricted to the shapes relevant to the rewrite: expression
statements, blocks, class declarations and variable declarations. -/
inductive Stmt where
  | exprStmt (span : Span) (e : Expr)
  | block (span : Span) (stmts : StmtList)
  | classDecl (name : String) (members : ClassMemberList)
  | varDecl (name : String) (init : Option Expr)

/-- A sequence of statements. -/
inductive StmtList where
  | nil
  | cons (s : Stmt) (ss : StmtList)

end

/-- swc `ModuleItem`: a statement, an import declaration, or a default
export of an expression (the only module declarations this pipeline reads
or writes). -/
inductive ModuleItem where
  | stmt (s : Stmt)
  | importDecl (d : ImportDecl)
  | exportDefaultExpr (span : Span) (e : Expr)

/-- swc `Module`: the module body. -/
structure Module where
  body : List ModuleItem

/-! ## ContentEscaper — `escape_template_literal` (src/src/transform.rs:77-79)

The Rust source applies three `str::replace` calls in sequence, each with a
single-character pattern; a single-character `str::replace` substitutes every
occurrence of that character.  The embedding works on the character list of
the string. -/

/-- The backtick character (written by code point: it delimits template
literals, which is exactly why the escaper targets it). -/
def backtick : Char := Char.ofNat 96

/-- One single-character `str::replace pat rep`: every character equal to
`pat` is replaced by the character sequence `rep`. -/
def replaceChar (pat : Char) (rep : List Char) (s : List Char) : List Char :=
  s.flatMap fun c => if c = pat then rep else [c]

/-- `escape_template_literal` (src/src/transform.rs:77-79):
`input.replace("\\", "\\\\").replace("` + "`" + `", "\\` + "`" + `").replace("$", "\\$")`,
on the character list. -/
def escape_template_literal (input : List Char) : List Char :=
  replaceChar '$' ['\\', '$']
    (replaceChar backtick ['\\', backtick]
      (replaceChar '\\' ['\\', '\\'] input))

/-- String wrapper for `escape_template_literal`, used when building the
content literal. -/
def escapeString (input : String) : String :=
  String.mk (escape_template_literal input.data)

/-- The per-character substitution table that the three sequential replaces
amount to (derived form, used to state the escaping claims). -/
def escChar (c : Char) : List Char :=
  if c = '\\' then ['\\', '\\']
  else if c = backtick then ['\\', backtick]
  else if c = '$' then ['\\', '$']
  else [c]

/-! ## ScopeSnippetBuilder — `crate::snippets` -/

/-- Modelled from the spec: `crate::snippets::scope_params` lives in
`src/snippets.rs`, which is not under `src/`; per spec §4.4 the builder for an
expression-position occurrence returns an object literal containing only the
zero-parameter `eval` trampoline method. The span argument mirrors the call
site `scope_params(closing.span)` in transform.rs. -/
def scope_params (span : Span) : Expr :=
  Expr.scopeObject span [ScopeMember.evalTrampoline]

/-- Modelled from the spec: `crate::snippets::scope_params_with_this` lives in
`src/snippets.rs`, which is not under `src/`; per spec §4.4, for a
class-member-position occurrence the object literal additionally carries a
`component` member whose value is the enclosing class reference (`this` in
the static-initializer context). -/
def scope_params_with_this (span : Span) : Expr :=
  Expr.scopeObject span [ScopeMember.evalTrampoline, ScopeMember.component]

/-- The member list of a scope-capture object (empty for any other
expression shape). -/
def scopeMembers : Expr → List ScopeMember
  | Expr.scopeObject _ ms => ms
  | _ => []

/-! ## TemplateRewriter — `TransformVisitor` (src/src/transform.rs) -/

/-- The options record (`crate::Options` as used by transform.rs and
bindings.rs): an optional caller-supplied content transformer.  The
`inline_source_map` flag only affects printing and is omitted. -/
structure Options where
  transformer : Option (String → String)

/-- `TransformVisitor` (src/src/transform.rs:19-23).  The `found_it:
Option<&mut bool>` back-reference is embedded by threading the flag through
every visit function: `set_found_it` writes `true` into it, so each visit
below takes the current flag and returns the updated one. -/
structure TransformVisitor where
  template_identifier : String
  options : Options

/-- `content_literal` (src/src/transform.rs:58-74): optionally run the
caller-supplied transformer on the raw content, then embed the escaped text
as the single quasi of a template literal. -/
def content_literal (tv : TransformVisitor) (contents : ContentTagContent) : Expr :=
  let content :=
    match tv.options.transformer with
    | some t => t contents.value
    | none => contents.value
  Expr.tpl contents.span
    [{ span := contents.span, cooked := none, raw := escapeString content, tail := false }]

/-- `transform_tag_expression` (src/src/transform.rs:39-56): an
expression-position occurrence becomes a call of the template identifier
with the content literal and the scope-capture object. -/
def transform_tag_expression (tv : TransformVisitor) (e : ContentTagExpression) : Expr :=
  Expr.call e.span (Expr.ident tv.template_identifier)
    (ExprList.cons (content_literal tv e.contents)
      (ExprList.cons (scope_params e.closing.span) ExprList.nil))

mutual

/-- `visit_mut_expr` (src/src/transform.rs:82-88): visit children first,
then replace a `ContentTagExpression` by the call and set the flag.
Children of a non-occurrence node never produce a new top-level occurrence
and an occurrence node has no visitable children, so the post-children check
is inlined per constructor. -/
def visitExpr (tv : TransformVisitor) : Expr → Bool → Expr × Bool
  | Expr.ident name, f => (Expr.ident name, f)
  | Expr.call sp callee args, f =>
    let r1 := visitExpr tv callee f
    let r2 := visitExprList tv args r1.2
    (Expr.call sp r1.1 r2.1, r2.2)
  | Expr.tpl sp quasis, f => (Expr.tpl sp quasis, f)
  | Expr.contentTagExpression e, _f => (transform_tag_expression tv e, true)
  | Expr.scopeObject sp ms, f => (Expr.scopeObject sp ms, f)
  | Expr.classExpr ms, f =>
    let r := visitClassMemberList tv ms f
    (Expr.classExpr r.1, r.2)
  | Expr.strLit v, f => (Expr.strLit v, f)

/-- Visit a sequence of expressions in order. -/
def visitExprList (tv : TransformVisitor) : ExprList → Bool → ExprList × Bool
  | ExprList.nil, f => (ExprList.nil, f)
  | ExprList.cons e es, f =>
    let r1 := visitExpr tv e f
    let r2 := visitExprList tv es r1.2
    (ExprList.cons r1.1 r2.1, r2.2)

/-- `visit_mut_class_member` (src/src/transform.rs:90-121): visit children
first, then replace a `ContentTagMember` by a static initializer block whose
single statement calls the template identifier with the content literal and
the scope-capture object carrying the `component` member. -/
def visitClassMember (tv : TransformVisitor) : ClassMember → Bool → ClassMember × Bool
  | ClassMember.contentTagMember span opening contents closing _tn _tt, _f =>
    let call_expr := Expr.call span (Expr.ident tv.template_identifier)
      (ExprList.cons (content_literal tv contents)
        (ExprList.cons (scope_params_with_this closing.span) ExprList.nil))
    (ClassMember.staticBlock opening.span span
      (StmtList.cons (Stmt.exprStmt span call_expr) StmtList.nil), true)
  | ClassMember.staticBlock sp bsp stmts, f =>
    let r := visitStmtList tv stmts f
    (ClassMember.staticBlock sp bsp r.1, r.2)
  | ClassMember.propMember name none, f => (ClassMember.propMember name none, f)
  | ClassMember.propMember name (some v), f =>
    let r := visitExpr tv v f
    (ClassMember.propMember name (some r.1), r.2)

/-- Visit a sequence of class members in order. -/
def visitClassMemberList (tv : TransformVisitor) : ClassMemberList → Bool → ClassMemberList × Bool
  | ClassMemberList.nil, f => (ClassMemberList.nil, f)
  | ClassMemberList.cons m ms, f =>
    let r1 := visitClassMember tv m f
    let r2 := visitClassMemberList tv ms r1.2
    (ClassMemberList.cons r1.1 r2.1, r2.2)

/-- Default statement visiting: recurse into children (no statement-level
override exists in the source). -/
def visitStmt (tv : TransformVisitor) : Stmt → Bool → Stmt × Bool
  | Stmt.exprStmt sp e, f =>
    let r := visitExpr tv e f
    (Stmt.exprStmt sp r.1, r.2)
  | Stmt.block sp stmts, f =>
    let r := visitStmtList tv stmts f
    (Stmt.block sp r.1, r.2)
  | Stmt.classDecl name ms, f =>
    let r := visitClassMemberList tv ms f
    (Stmt.classDecl name r.1, r.2)
  | Stmt.varDecl name none, f => (Stmt.varDecl name none, f)
  | Stmt.varDecl name (some e), f =>
    let r := visitExpr tv e f
    (Stmt.varDecl name (some r.1), r.2)

/-- Visit a sequence of statements in order. -/
def visitStmtList (tv : TransformVisitor) : StmtList → Bool → StmtList × Bool
  | StmtList.nil, f => (StmtList.nil, f)
  | StmtList.cons s ss, f =>
    let r1 := visitStmt tv s f
    let r2 := visitStmtList tv ss r1.2
    (StmtList.cons r1.1 r2.1, r2.2)

end

/-- `content_tag_expression_statement` (src/src/transform.rs:144-154): a
module item that is exactly a bare expression statement whose entire
expression is a content-tag expression. -/
def content_tag_expression_statement : ModuleItem → Option ContentTagExpression
  | ModuleItem.stmt (Stmt.exprStmt _ (Expr.contentTagExpression e)) => some e
  | _ => none

/-- Default module-item child visiting (import declarations contain no
visitable expression children). -/
def visitModuleItem (tv : TransformVisitor) : ModuleItem → Bool → ModuleItem × Bool
  | ModuleItem.stmt s, f =>
    let r := visitStmt tv s f
    (ModuleItem.stmt r.1, r.2)
  | ModuleItem.importDecl d, f => (ModuleItem.importDecl d, f)
  | ModuleItem.exportDefaultExpr sp e, f =>
    let r := visitExpr tv e f
    (ModuleItem.exportDefaultExpr sp r.1, r.2)

/-- Visit a sequence of module items in order. -/
def visitModuleItemList (tv : TransformVisitor) : List ModuleItem → Bool → List ModuleItem × Bool
  | [], f => ([], f)
  | item :: rest, f =>
    let r1 := visitModuleItem tv item f
    let r2 := visitModuleItemList tv rest r1.2
    (r1.1 :: r2.1, r2.2)

/-- The first loop of `visit_mut_module_items` (src/src/transform.rs:124-137):
every item that is exactly a bare content-tag expression statement is turned
into a default-export declaration wrapping the transformed call, setting the
flag; every other item is kept. -/
def promoteItems (tv : TransformVisitor) : List ModuleItem → Bool → List ModuleItem × Bool
  | [], f => ([], f)
  | item :: rest, f =>
    match content_tag_expression_statement item with
    | some e =>
      let r := promoteItems tv rest true
      (ModuleItem.exportDefaultExpr e.span (transform_tag_expression tv e) :: r.1, r.2)
    | none =>
      let r := promoteItems tv rest f
      (item :: r.1, r.2)

/-- `visit_mut_module_items` (src/src/transform.rs:123-141): first the
top-level promotion loop, then `items.visit_mut_children_with(self)`. -/
def visit_mut_module_items (tv : TransformVisitor) (items : List ModuleItem) (f : Bool) :
    List ModuleItem × Bool :=
  let r := promoteItems tv items f
  visitModuleItemList tv r.1 r.2

/-! ## ScopeAwareImportResolver — lib.rs -/

/-- The imported-name check inside `find_existing_import`
(src/src/lib.rs:177-186): a named specifier matches when its imported name —
explicit identifier, explicit string, or the local name for a shorthand
specifier — equals the target specifier; its local identifier is returned.
Default and namespace specifiers fall into the `_ => {}` arm. -/
def import_matches (target_specifier : String) : ImportSpecifier → Option String
  | ImportSpecifier.named s =>
    let imported :=
      match s.imported with
      | some (ModuleExportName.ident i) => i
      | some (ModuleExportName.str v) => v
      | none => s.localName
    if imported = target_specifier then some s.localName else none
  | _ => none

/-- The inner specifier loop of `find_existing_import`: first matching
specifier wins. -/
def find_in_specifiers (target_specifier : String) :
    List ImportSpecifier → Option String
  | [] => none
  | sp :: rest =>
    match import_matches target_specifier sp with
    | some l => some l
    | none => find_in_specifiers target_specifier rest

/-- The outer item loop of `find_existing_import` (src/src/lib.rs:171-194):
scan module items in order; for an import declaration whose source equals
the target module, return the first matching specifier's local name; fall
through to later items otherwise. -/
def find_existing_import_items (target_module target_specifier : String) :
    List ModuleItem → Option String
  | [] => none
  | ModuleItem.importDecl d :: rest =>
    if d.src = target_module then
      match find_in_specifiers target_specifier d.specifiers with
      | some l => some l
      | none => find_existing_import_items target_module target_specifier rest
    else find_existing_import_items target_module target_specifier rest
  | _ :: rest => find_existing_import_items target_module target_specifier rest

/-- `find_existing_import` (src/src/lib.rs:166-196). -/
def find_existing_import (m : Module) (target_module target_specifier : String) :
    Option String :=
  find_existing_import_items target_module target_specifier m.body

/-- `insert_import` (src/src/lib.rs:198-222): insert at index 0 an import of
`target_specifier` (as an explicit imported identifier) from `target_module`
bound to `localName`. -/
def insert_import (m : Module) (target_module target_specifier : String)
    (localName : String) : Module :=
  ⟨ModuleItem.importDecl
      { src := target_module
        specifiers := [ImportSpecifier.named
          { localName := localName
            imported := some (ModuleExportName.ident target_specifier)
            isTypeOnly := false }]
        typeOnly := false } :: m.body⟩

/-! ## ImportSimplifier — `simplify_imports` (src/src/lib.rs:228-253) -/

/-- The specifier rewrite inside `simplify_imports`: a named specifier whose
explicit imported *identifier* equals its local name loses the alias;
everything else is untouched. -/
def simplify_specifier : ImportSpecifier → ImportSpecifier
  | ImportSpecifier.named s =>
    match s.imported with
    | some (ModuleExportName.ident imported) =>
      if s.localName = imported then ImportSpecifier.named { s with imported := none }
      else ImportSpecifier.named s
    | _ => ImportSpecifier.named s
  | sp => sp

/-- The item rewrite inside `simplify_imports`: import declarations have
every specifier simplified; other items are untouched. -/
def simplify_item : ModuleItem → ModuleItem
  | ModuleItem.importDecl d =>
    ModuleItem.importDecl { d with specifiers := d.specifiers.map simplify_specifier }
  | item => item

/-- `simplify_imports` (src/src/lib.rs:228-253). -/
def simplify_imports (m : Module) : Module :=
  ⟨m.body.map simplify_item⟩

/-! ## The pipeline — `Preprocessor::process` (src/src/lib.rs:55-111)

Parsing, the resolver/hygiene passes and code generation are external
collaborators (spec §1, out of scope); the pipeline is embedded from the
parsed module to the module handed to the emitter, with the external
resolver/hygiene passes — which only affect identifier marks, not the shape
rewrites — elided. -/

/-- `private_ident!(target_specifier)` allocates a fresh identifier whose
name is the seed; uniqueness is the external hygiene pass's job, so the
embedding keeps just the name. -/
def private_ident (s : String) : String := s

/-- `Preprocessor::process` (src/src/lib.rs:55-111), from parsed module to
emitted module: resolve or allocate the template identifier, run the
rewriter with a fresh `needs_import` flag, insert the import when no
pre-existing binding was found and a rewrite occurred, then simplify
imports. -/
def process_module (options : Options) (m : Module) : Module :=
  let target_specifier := "template"
  let target_module := "@ember/template-compiler"
  let found_id := find_existing_import m target_module target_specifier
  let had_id_already := found_id.isSome
  let id := found_id.getD (private_ident target_specifier)
  let visited := visit_mut_module_items { template_identifier := id, options := options } m.body false
  let m1 : Module := ⟨visited.1⟩
  let m2 :=
    if !had_id_already && visited.2 then
      insert_import m1 target_module target_specifier id
    else m1
  simplify_imports m2

/-! ## Occurrence predicates

`hasTag` decides whether a subtree still contains a template occurrence
(`ContentTagExpression` or `ContentTagMember`); it is the specification
vocabulary for "occurrence anywhere in the tree". -/

mutual

/-- Whether an expression subtree contains a template occurrence. -/
def exprHasTag : Expr → Bool
  | Expr.ident _ => false
  | Expr.call _ callee args => exprHasTag callee || exprListHasTag args
  | Expr.tpl _ _ => false
  | Expr.contentTagExpression _ => true
  | Expr.scopeObject _ _ => false
  | Expr.classExpr ms => classMemberListHasTag ms
  | Expr.strLit _ => false

/-- Whether an expression sequence contains a template occurrence. -/
def exprListHasTag : ExprList → Bool
  | ExprList.nil => false
  | ExprList.cons e es => exprHasTag e || exprListHasTag es

/-- Whether a class member subtree contains a template occurrence. -/
def classMemberHasTag : ClassMember → Bool
  | ClassMember.contentTagMember _ _ _ _ _ _ => true
  | ClassMember.staticBlock _ _ stmts => stmtListHasTag stmts
  | ClassMember.propMember _ none => false
  | ClassMember.propMember _ (some v) => exprHasTag v

/-- Whether a class member sequence contains a template occurrence. -/
def classMemberListHasTag : ClassMemberList → Bool
  | ClassMemberList.nil => false
  | ClassMemberList.cons m ms => classMemberHasTag m || classMemberListHasTag ms

/-- Whether a statement subtree contains a template occurrence. -/
def stmtHasTag : Stmt → Bool
  | Stmt.exprStmt _ e => exprHasTag e
  | Stmt.block _ stmts => stmtListHasTag stmts
  | Stmt.classDecl _ ms => classMemberListHasTag ms
  | Stmt.varDecl _ none => false
  | Stmt.varDecl _ (some e) => exprHasTag e

/-- Whether a statement sequence contains a template occurrence. -/
def stmtListHasTag : StmtList → Bool
  | StmtList.nil => false
  | StmtList.cons s ss => stmtHasTag s || stmtListHasTag ss

end

/-- Whether a module item contains a template occurrence. -/
def itemHasTag : ModuleItem → Bool
  | ModuleItem.stmt s => stmtHasTag s
  | ModuleItem.importDecl _ => false
  | ModuleItem.exportDefaultExpr _ e => exprHasTag e

/-- Whether any module item contains a template occurrence. -/
def itemsHasTag : List ModuleItem → Bool
  | [] => false
  | item :: rest => itemHasTag item || itemsHasTag rest

/-! ## Import observations (the vocabulary of the import claims) -/

/-- The import declaration carried by a module item, if any. -/
def itemImport : ModuleItem → Option ImportDecl
  | ModuleItem.importDecl d => some d
  | _ => none

/-- All import declarations of a module body, in document order. -/
def importDeclsOf (items : List ModuleItem) : List ImportDecl :=
  items.filterMap itemImport

/-- The local binding name of an import specifier. -/
def specLocalName : ImportSpecifier → String
  | ImportSpecifier.named s => s.localName
  | ImportSpecifier.defaultSpec l => l
  | ImportSpecifier.namespaceSpec l => l

/-- The effective imported name of a named specifier: the explicit imported
identifier or string, or the local name for a shorthand specifier. -/
def specImportedName : ImportSpecifier → Option String
  | ImportSpecifier.named s =>
    match s.imported with
    | some (ModuleExportName.ident i) => some i
    | some (ModuleExportName.str v) => some v
    | none => some s.localName
  | _ => none

/-- The per-declaration source and local names, the data that fixes which
bindings a module's imports introduce. -/
def importBindingsOf (items : List ModuleItem) : List (String × List String) :=
  (importDeclsOf items).map fun d => (d.src, d.specifiers.map specLocalName)

/-! ## LocateExtractor -/

/-- `ContentTagInfo` (src/src/lib.rs:32-40); `endOffset` embeds the `end`
field (`end` is a Lean keyword). -/
structure ContentTagInfo where
  start : Nat
  content_start : Nat
  content_end : Nat
  endOffset : Nat
  tag_name : String
  tag_type : String
  content : String
deriving DecidableEq, Repr

mutual

/-- Modelled from the spec: `locate::LocateVisitor` lives in
`src/locate.rs`, which is not under `src/`.  Per spec §4.6 the pass is a
single-pass, non-mutating, document-order traversal emitting one record per
occurrence (expression- or class-member-position alike), populated directly
from the occurrence's spans, tag classification and raw content. -/
def locateExpr : Expr → List ContentTagInfo
  | Expr.ident _ => []
  | Expr.call _ callee args => locateExpr callee ++ locateExprList args
  | Expr.tpl _ _ => []
  | Expr.contentTagExpression e =>
    [{ start := e.span.lo
       content_start := e.contents.span.lo
       content_end := e.contents.span.hi
       endOffset := e.span.hi
       tag_name := e.tagName
       tag_type := e.tagType
       content := e.contents.value }]
  | Expr.scopeObject _ _ => []
  | Expr.classExpr ms => locateClassMemberList ms
  | Expr.strLit _ => []

/-- Locate records of an expression sequence, in order. -/
def locateExprList : ExprList → List ContentTagInfo
  | ExprList.nil => []
  | ExprList.cons e es => locateExpr e ++ locateExprList es

/-- Locate records of a class member (see `locateExpr`). -/
def locateClassMember : ClassMember → List ContentTagInfo
  | ClassMember.contentTagMember span _opening contents _closing tagName tagType =>
    [{ start := span.lo
       content_start := contents.span.lo
       content_end := contents.span.hi
       endOffset := span.hi
       tag_name := tagName
       tag_type := tagType
       content := contents.value }]
  | ClassMember.staticBlock _ _ stmts => locateStmtList stmts
  | ClassMember.propMember _ none => []
  | ClassMember.propMember _ (some v) => locateExpr v

/-- Locate records of a class member sequence, in order. -/
def locateClassMemberList : ClassMemberList → List ContentTagInfo
  | ClassMemberList.nil => []
  | ClassMemberList.cons m ms => locateClassMember m ++ locateClassMemberList ms

/-- Locate records of a statement (see `locateExpr`). -/
def locateStmt : Stmt → List ContentTagInfo
  | Stmt.exprStmt _ e => locateExpr e
  | Stmt.block _ stmts => locateStmtList stmts
  | Stmt.classDecl _ ms => locateClassMemberList ms
  | Stmt.varDecl _ none => []
  | Stmt.varDecl _ (some e) => locateExpr e

/-- Locate records of a statement sequence, in order. -/
def locateStmtList : StmtList → List ContentTagInfo
  | StmtList.nil => []
  | StmtList.cons s ss => locateStmt s ++ locateStmtList ss

end

/-- Locate records of a module item. -/
def locateItem : ModuleItem → List ContentTagInfo
  | ModuleItem.stmt s => locateStmt s
  | ModuleItem.importDecl _ => []
  | ModuleItem.exportDefaultExpr _ e => locateExpr e

/-- `Preprocessor::locate` (src/src/lib.rs:135-163) after parsing: collect
the records of every module item in document order. -/
def locate (m : Module) : List ContentTagInfo :=
  m.body.flatMap locateItem

/-- Modelled from the spec: the external parser (out of scope, spec §1
and §6) applied to the source `<template>Hello world!</template>` yields a
single bare expression statement holding one expression-position occurrence.
Offsets are 0-based character offsets into that source: the opening
delimiter `<template>` occupies 0-10, the content `Hello world!` 10-22, the
closing delimiter 22-33. -/
def helloWorldModule : Module :=
  ⟨[ModuleItem.stmt (Stmt.exprStmt ⟨0, 33⟩ (Expr.contentTagExpression
    { span := ⟨0, 33⟩
      opening := ⟨⟨0, 10⟩⟩
      contents := { span := ⟨10, 22⟩, value := "Hello world!" }
      closing := ⟨⟨22, 33⟩⟩
      tagName := "template"
      tagType := "expression" }))]⟩

/-! ## Transformer conversion — `convert_js_transformer` (src/src/bindings.rs:100-117) -/

/-- The outcome of running the converted caller-supplied transformer:
either the transformed text, or the process-fatal abort (`panic!("nope")` in
the source — the `Box<dyn Fn(String) -> String>` signature has no error
channel, so a failure cannot be returned as a recoverable value). -/
inductive TransformerResult where
  | ok (value : String)
  | processFatal
deriving DecidableEq, Repr

/-- `convert_js_transformer` (src/src/bindings.rs:100-117).  The JavaScript
callback is abstracted as `String → Option String`: `none` collapses the two
failure modes of the source (`call1` raising, or the returned value not
being a string, src/src/bindings.rs:104-110); in both cases the source
panics. -/
def convert_js_transformer (js_function : String → Option String) (s : String) :
    TransformerResult :=
  match js_function s with
  | some v => TransformerResult.ok v
  | none => TransformerResult.processFatal

/-! ## Claim-level observations and the import-lookup refinement spec -/

/-- The callee of a call expression (for inspecting rewritten call sites). -/
def calleeOf : Expr → Option Expr
  | Expr.call _ c _ => some c
  | _ => none

/-- Written from the claim's words (refinement specification for the import
lookup, to be compared with `find_existing_import`): flatten, in document
order, the specifiers of the top-level import declarations whose source
equals the target module, and return the local name of the first specifier
whose effective imported name equals the target name. -/
def find_existing_import_claimed (m : Module) (target_module target_specifier : String) :
    Option String :=
  (((importDeclsOf m.body).filter fun d => d.src = target_module).flatMap
      fun d => d.specifiers).findSome?
    fun sp =>
      if specImportedName sp = some target_specifier then some (specLocalName sp) else none

/-! # Lemmas -/

/-! ### Escaping -/

theorem replaceChar_cons (pat : Char) (rep : List Char) (c : Char) (cs : List Char) :
    replaceChar pat rep (c :: cs)
      = (if c = pat then rep else [c]) ++ replaceChar pat rep cs := by
  simp [replaceChar]

theorem replaceChar_append (pat : Char) (rep : List Char) (l₁ l₂ : List Char) :
    replaceChar pat rep (l₁ ++ l₂)
      = replaceChar pat rep l₁ ++ replaceChar pat rep l₂ := by
  simp [replaceChar]

/-- The three sequential single-character replaces act on each input
character independently: on a cons they contribute the substitution table
`escChar` for the head.  The inserted escape characters are never
re-substituted because a backslash is only inserted by the first replace and
the later replaces target other characters. -/
theorem escape_cons (c : Char) (cs : List Char) :
    escape_template_literal (c :: cs) = escChar c ++ escape_template_literal cs := by
  unfold escape_template_literal
  rw [replaceChar_cons, replaceChar_append, replaceChar_append]
  congr 1
  by_cases h1 : c = '\\'
  · subst h1; decide
  · by_cases h2 : c = backtick
    · subst h2; decide
    · by_cases h3 : c = '$'
      · subst h3; decide
      · simp [replaceChar, escChar, h1, h2, h3]

/-- The composite of the three replaces equals the single-pass,
per-character substitution. -/
theorem escape_flatMap (input : List Char) :
    escape_template_literal input = input.flatMap escChar := by
  induction input with
  | nil => rfl
  | cons c cs ih => rw [escape_cons, ih, List.flatMap_cons]

/-- Escaping never produces a newline from any single character. -/
theorem escChar_count_newline (c : Char) :
    (escChar c).count '\n' = ([c] : List Char).count '\n' := by
  by_cases h1 : c = '\\'
  · subst h1; decide
  · by_cases h2 : c = backtick
    · subst h2; decide
    · by_cases h3 : c = '$'
      · subst h3; decide
      · simp [escChar, h1, h2, h3]

theorem escape_count_newline (input : List Char) :
    (escape_template_literal input).count '\n' = input.count '\n' := by
  induction input with
  | nil => rfl
  | cons c cs ih =>
    rw [escape_cons, List.count_append, escChar_count_newline, ih]
    simp [List.count_cons]
    omega

theorem escape_backslash_n (input : List Char)
    (h : List.IsInfix ['\\', 'n'] input) :
    List.IsInfix ['\\', '\\', 'n'] (escape_template_literal input) := by
  obtain ⟨s, t, hst⟩ := h
  refine ⟨s.flatMap escChar, t.flatMap escChar, ?_⟩
  rw [escape_flatMap, ← hst]
  have h1 : escChar '\\' = ['\\', '\\'] := by decide
  have h2 : escChar 'n' = ['n'] := by decide
  simp [List.flatMap_append, h1, h2]

/-- C4: the escape function applies exactly the three character-level
substitutions of src/src/transform.rs:77-79 — backslash to escaped
backslash, then the template-literal delimiter (backtick) to its escaped
form, then the interpolation trigger (dollar) to its escaped form — and no
other substitution: the composite equals the per-character table `escChar`,
which maps every other character to itself.  In particular a literal
backslash followed by `n` becomes escaped-backslash followed by `n`, and no
newline character is ever created or destroyed. -/
theorem c4_escape_exactly_three_substitutions :
    (∀ input : List Char, escape_template_literal input = input.flatMap escChar)
    ∧ escChar '\\' = ['\\', '\\']
    ∧ escChar backtick = ['\\', backtick]
    ∧ escChar '$' = ['\\', '$']
    ∧ (∀ c : Char, c ≠ '\\' → c ≠ backtick → c ≠ '$' → escChar c = [c])
    ∧ (∀ input : List Char, List.IsInfix ['\\', 'n'] input →
        List.IsInfix ['\\', '\\', 'n'] (escape_template_literal input))
    ∧ (∀ input : List Char,
        (escape_template_literal input).count '\n' = input.count '\n') := by
  refine ⟨escape_flatMap, by decide, by decide, by decide, ?_,
    escape_backslash_n, escape_count_newline⟩
  intro c h1 h2 h3
  simp [escChar, h1, h2, h3]

/-- Witness for C4 at the concrete input `a\nb` (four characters: `a`,
backslash, `n`, `b`): the hypothesis-bearing conjuncts applied concretely. -/
theorem c4_escape_exactly_three_substitutions_witness :
    escChar 'n' = ['n']
    ∧ List.IsInfix ['\\', '\\', 'n'] (escape_template_literal ['a', '\\', 'n', 'b']) :=
  ⟨c4_escape_exactly_three_substitutions.2.2.2.2.1 'n' (by decide) (by decide) (by decide),
   c4_escape_exactly_three_substitutions.2.2.2.2.2.1 ['a', '\\', 'n', 'b'] (by decide)⟩

/-! ### The rewriter's traversal -/

/-- The call produced for an occurrence contains no occurrence: its callee
is an identifier, its first argument a template literal and its second a
scope-capture object. -/
theorem transform_tag_expression_hasTag (tv : TransformVisitor) (e : ContentTagExpression) :
    exprHasTag (transform_tag_expression tv e) = false := by
  simp [transform_tag_expression, content_literal, scope_params, exprHasTag, exprListHasTag]

mutual

/-- The output flag after visiting an expression is the incoming flag OR-ed
with the subtree containing an occurrence. -/
theorem visitExpr_flag (tv : TransformVisitor) (e : Expr) (f : Bool) :
    (visitExpr tv e f).2 = (f || exprHasTag e) := by
  cases e with
  | ident name => simp [visitExpr, exprHasTag]
  | call sp callee args =>
    simp [visitExpr, exprHasTag, visitExpr_flag tv callee f,
      visitExprList_flag tv args, Bool.or_assoc]
  | tpl sp quasis => simp [visitExpr, exprHasTag]
  | contentTagExpression e => simp [visitExpr, exprHasTag]
  | scopeObject sp ms => simp [visitExpr, exprHasTag]
  | classExpr ms => simp [visitExpr, exprHasTag, visitClassMemberList_flag tv ms f]
  | strLit v => simp [visitExpr, exprHasTag]

theorem visitExprList_flag (tv : TransformVisitor) (es : ExprList) (f : Bool) :
    (visitExprList tv es f).2 = (f || exprListHasTag es) := by
  cases es with
  | nil => simp [visitExprList, exprListHasTag]
  | cons e es =>
    simp [visitExprList, exprListHasTag, visitExpr_flag tv e f,
      visitExprList_flag tv es, Bool.or_assoc]

theorem visitClassMember_flag (tv : TransformVisitor) (m : ClassMember) (f : Bool) :
    (visitClassMember tv m f).2 = (f || classMemberHasTag m) := by
  cases m with
  | contentTagMember span opening contents closing tn tt =>
    simp [visitClassMember, classMemberHasTag]
  | staticBlock sp bsp stmts =>
    simp [visitClassMember, classMemberHasTag, visitStmtList_flag tv stmts f]
  | propMember name v =>
    cases v with
    | none => simp [visitClassMember, classMemberHasTag]
    | some v => simp [visitClassMember, classMemberHasTag, visitExpr_flag tv v f]

theorem visitClassMemberList_flag (tv : TransformVisitor) (ms : ClassMemberList) (f : Bool) :
    (visitClassMemberList tv ms f).2 = (f || classMemberListHasTag ms) := by
  cases ms with
  | nil => simp [visitClassMemberList, classMemberListHasTag]
  | cons m ms =>
    simp [visitClassMemberList, classMemberListHasTag, visitClassMember_flag tv m f,
      visitClassMemberList_flag tv ms, Bool.or_assoc]

theorem visitStmt_flag (tv : TransformVisitor) (s : Stmt) (f : Bool) :
    (visitStmt tv s f).2 = (f || stmtHasTag s) := by
  cases s with
  | exprStmt sp e => simp [visitStmt, stmtHasTag, visitExpr_flag tv e f]
  | block sp stmts => simp [visitStmt, stmtHasTag, visitStmtList_flag tv stmts f]
  | classDecl name ms => simp [visitStmt, stmtHasTag, visitClassMemberList_flag tv ms f]
  | varDecl name v =>
    cases v with
    | none => simp [visitStmt, stmtHasTag]
    | some e => simp [visitStmt, stmtHasTag, visitExpr_flag tv e f]

theorem visitStmtList_flag (tv : TransformVisitor) (ss : StmtList) (f : Bool) :
    (visitStmtList tv ss f).2 = (f || stmtListHasTag ss) := by
  cases ss with
  | nil => simp [visitStmtList, stmtListHasTag]
  | cons s ss =>
    simp [visitStmtList, stmtListHasTag, visitStmt_flag tv s f,
      visitStmtList_flag tv ss, Bool.or_assoc]

end

mutual

/-- A subtree containing no occurrence is returned unchanged with the flag
untouched. -/
theorem visitExpr_id (tv : TransformVisitor) (e : Expr) (f : Bool)
    (h : exprHasTag e = false) : visitExpr tv e f = (e, f) := by
  cases e with
  | ident name => simp [visitExpr]
  | call sp callee args =>
    simp only [exprHasTag, Bool.or_eq_false_iff] at h
    simp [visitExpr, visitExpr_id tv callee f h.1, visitExprList_id tv args f h.2]
  | tpl sp quasis => simp [visitExpr]
  | contentTagExpression e => simp [exprHasTag] at h
  | scopeObject sp ms => simp [visitExpr]
  | classExpr ms =>
    simp only [exprHasTag] at h
    simp [visitExpr, visitClassMemberList_id tv ms f h]
  | strLit v => simp [visitExpr]

theorem visitExprList_id (tv : TransformVisitor) (es : ExprList) (f : Bool)
    (h : exprListHasTag es = false) : visitExprList tv es f = (es, f) := by
  cases es with
  | nil => simp [visitExprList]
  | cons e es =>
    simp only [exprListHasTag, Bool.or_eq_false_iff] at h
    simp [visitExprList, visitExpr_id tv e f h.1, visitExprList_id tv es f h.2]

theorem visitClassMember_id (tv : TransformVisitor) (m : ClassMember) (f : Bool)
    (h : classMemberHasTag m = false) : visitClassMember tv m f = (m, f) := by
  cases m with
  | contentTagMember span opening contents closing tn tt => simp [classMemberHasTag] at h
  | staticBlock sp bsp stmts =>
    simp only [classMemberHasTag] at h
    simp [visitClassMember, visitStmtList_id tv stmts f h]
  | propMember name v =>
    cases v with
    | none => simp [visitClassMember]
    | some v =>
      simp only [classMemberHasTag] at h
      simp [visitClassMember, visitExpr_id tv v f h]

theorem visitClassMemberList_id (tv : TransformVisitor) (ms : ClassMemberList) (f : Bool)
    (h : classMemberListHasTag ms = false) : visitClassMemberList tv ms f = (ms, f) := by
  cases ms with
  | nil => simp [visitClassMemberList]
  | cons m ms =>
    simp only [classMemberListHasTag, Bool.or_eq_false_iff] at h
    simp [visitClassMemberList, visitClassMember_id tv m f h.1,
      visitClassMemberList_id tv ms f h.2]

theorem visitStmt_id (tv : TransformVisitor) (s : Stmt) (f : Bool)
    (h : stmtHasTag s = false) : visitStmt tv s f = (s, f) := by
  cases s with
  | exprStmt sp e =>
    simp only [stmtHasTag] at h
    simp [visitStmt, visitExpr_id tv e f h]
  | block sp stmts =>
    simp only [stmtHasTag] at h
    simp [visitStmt, visitStmtList_id tv stmts f h]
  | classDecl name ms =>
    simp only [stmtHasTag] at h
    simp [visitStmt, visitClassMemberList_id tv ms f h]
  | varDecl name v =>
    cases v with
    | none => simp [visitStmt]
    | some e =>
      simp only [stmtHasTag] at h
      simp [visitStmt, visitExpr_id tv e f h]

theorem visitStmtList_id (tv : TransformVisitor) (ss : StmtList) (f : Bool)
    (h : stmtListHasTag ss = false) : visitStmtList tv ss f = (ss, f) := by
  cases ss with
  | nil => simp [visitStmtList]
  | cons s ss =>
    simp only [stmtListHasTag, Bool.or_eq_false_iff] at h
    simp [visitStmtList, visitStmt_id tv s f h.1, visitStmtList_id tv ss f h.2]

end

mutual

/-- After visiting, no occurrence remains anywhere in the subtree. -/
theorem visitExpr_noTags (tv : TransformVisitor) (e : Expr) (f : Bool) :
    exprHasTag (visitExpr tv e f).1 = false := by
  cases e with
  | ident name => simp [visitExpr, exprHasTag]
  | call sp callee args =>
    simp [visitExpr, exprHasTag, visitExpr_noTags tv callee f,
      visitExprList_noTags tv args ((visitExpr tv callee f).2)]
  | tpl sp quasis => simp [visitExpr, exprHasTag]
  | contentTagExpression e => simp [visitExpr, transform_tag_expression_hasTag tv e]
  | scopeObject sp ms => simp [visitExpr, exprHasTag]
  | classExpr ms => simp [visitExpr, exprHasTag, visitClassMemberList_noTags tv ms f]
  | strLit v => simp [visitExpr, exprHasTag]

theorem visitExprList_noTags (tv : TransformVisitor) (es : ExprList) (f : Bool) :
    exprListHasTag (visitExprList tv es f).1 = false := by
  cases es with
  | nil => simp [visitExprList, exprListHasTag]
  | cons e es =>
    simp [visitExprList, exprListHasTag, visitExpr_noTags tv e f,
      visitExprList_noTags tv es ((visitExpr tv e f).2)]

theorem visitClassMember_noTags (tv : TransformVisitor) (m : ClassMember) (f : Bool) :
    classMemberHasTag (visitClassMember tv m f).1 = false := by
  cases m with
  | contentTagMember span opening contents closing tn tt =>
    simp [visitClassMember, classMemberHasTag, stmtListHasTag, stmtHasTag,
      content_literal, scope_params_with_this, exprHasTag, exprListHasTag]
  | staticBlock sp bsp stmts =>
    simp [visitClassMember, classMemberHasTag, visitStmtList_noTags tv stmts f]
  | propMember name v =>
    cases v with
    | none => simp [visitClassMember, classMemberHasTag]
    | some v => simp [visitClassMember, classMemberHasTag, visitExpr_noTags tv v f]

theorem visitClassMemberList_noTags (tv : TransformVisitor) (ms : ClassMemberList) (f : Bool) :
    classMemberListHasTag (visitClassMemberList tv ms f).1 = false := by
  cases ms with
  | nil => simp [visitClassMemberList, classMemberListHasTag]
  | cons m ms =>
    simp [visitClassMemberList, classMemberListHasTag, visitClassMember_noTags tv m f,
      visitClassMemberList_noTags tv ms ((visitClassMember tv m f).2)]

theorem visitStmt_noTags (tv : TransformVisitor) (s : Stmt) (f : Bool) :
    stmtHasTag (visitStmt tv s f).1 = false := by
  cases s with
  | exprStmt sp e => simp [visitStmt, stmtHasTag, visitExpr_noTags tv e f]
  | block sp stmts => simp [visitStmt, stmtHasTag, visitStmtList_noTags tv stmts f]
  | classDecl name ms => simp [visitStmt, stmtHasTag, visitClassMemberList_noTags tv ms f]
  | varDecl name v =>
    cases v with
    | none => simp [visitStmt, stmtHasTag]
    | some e => simp [visitStmt, stmtHasTag, visitExpr_noTags tv e f]

theorem visitStmtList_noTags (tv : TransformVisitor) (ss : StmtList) (f : Bool) :
    stmtListHasTag (visitStmtList tv ss f).1 = false := by
  cases ss with
  | nil => simp [visitStmtList, stmtListHasTag]
  | cons s ss =>
    simp [visitStmtList, stmtListHasTag, visitStmt_noTags tv s f,
      visitStmtList_noTags tv ss ((visitStmt tv s f).2)]

end

/-! ### The module-items pass -/

theorem visitModuleItem_flag (tv : TransformVisitor) (item : ModuleItem) (f : Bool) :
    (visitModuleItem tv item f).2 = (f || itemHasTag item) := by
  cases item with
  | stmt s => simp [visitModuleItem, itemHasTag, visitStmt_flag tv s f]
  | importDecl d => simp [visitModuleItem, itemHasTag]
  | exportDefaultExpr sp e => simp [visitModuleItem, itemHasTag, visitExpr_flag tv e f]

theorem visitModuleItem_id (tv : TransformVisitor) (item : ModuleItem) (f : Bool)
    (h : itemHasTag item = false) : visitModuleItem tv item f = (item, f) := by
  cases item with
  | stmt s =>
    simp only [itemHasTag] at h
    simp [visitModuleItem, visitStmt_id tv s f h]
  | importDecl d => simp [visitModuleItem]
  | exportDefaultExpr sp e =>
    simp only [itemHasTag] at h
    simp [visitModuleItem, visitExpr_id tv e f h]

theorem visitModuleItem_noTags (tv : TransformVisitor) (item : ModuleItem) (f : Bool) :
    itemHasTag (visitModuleItem tv item f).1 = false := by
  cases item with
  | stmt s => simp [visitModuleItem, itemHasTag, visitStmt_noTags tv s f]
  | importDecl d => simp [visitModuleItem, itemHasTag]
  | exportDefaultExpr sp e => simp [visitModuleItem, itemHasTag, visitExpr_noTags tv e f]

theorem visitModuleItem_import (tv : TransformVisitor) (item : ModuleItem) (f : Bool) :
    itemImport (visitModuleItem tv item f).1 = itemImport item := by
  cases item with
  | stmt s => simp [visitModuleItem, itemImport]
  | importDecl d => simp [visitModuleItem, itemImport]
  | exportDefaultExpr sp e => simp [visitModuleItem, itemImport]

theorem visitModuleItemList_flag (tv : TransformVisitor) (items : List ModuleItem) (f : Bool) :
    (visitModuleItemList tv items f).2 = (f || itemsHasTag items) := by
  induction items generalizing f with
  | nil => simp [visitModuleItemList, itemsHasTag]
  | cons item rest ih =>
    simp [visitModuleItemList, itemsHasTag, visitModuleItem_flag tv item f, ih,
      Bool.or_assoc]

theorem visitModuleItemList_id (tv : TransformVisitor) (items : List ModuleItem) (f : Bool)
    (h : itemsHasTag items = false) : visitModuleItemList tv items f = (items, f) := by
  induction items generalizing f with
  | nil => simp [visitModuleItemList]
  | cons item rest ih =>
    simp only [itemsHasTag, Bool.or_eq_false_iff] at h
    simp [visitModuleItemList, visitModuleItem_id tv item f h.1, ih f h.2]

theorem visitModuleItemList_noTags (tv : TransformVisitor) (items : List ModuleItem) (f : Bool) :
    itemsHasTag (visitModuleItemList tv items f).1 = false := by
  induction items generalizing f with
  | nil => simp [visitModuleItemList, itemsHasTag]
  | cons item rest ih =>
    simp [visitModuleItemList, itemsHasTag, visitModuleItem_noTags tv item f,
      ih ((visitModuleItem tv item f).2)]

theorem importDeclsOf_cons (item : ModuleItem) (rest : List ModuleItem) :
    importDeclsOf (item :: rest) = (itemImport item).toList ++ importDeclsOf rest := by
  cases h : itemImport item <;> simp [importDeclsOf, List.filterMap_cons, h]

theorem visitModuleItemList_importDecls (tv : TransformVisitor) (items : List ModuleItem)
    (f : Bool) : importDeclsOf (visitModuleItemList tv items f).1 = importDeclsOf items := by
  induction items generalizing f with
  | nil => simp [visitModuleItemList]
  | cons item rest ih =>
    simp [visitModuleItemList, importDeclsOf_cons, visitModuleItem_import tv item f, ih]

/-- A bare content-tag expression statement contains an occurrence. -/
theorem content_tag_expression_statement_hasTag (item : ModuleItem)
    (e : ContentTagExpression) (h : content_tag_expression_statement item = some e) :
    itemHasTag item = true := by
  cases item with
  | stmt s =>
    cases s with
    | exprStmt sp e' =>
      cases e' <;> simp_all [content_tag_expression_statement, itemHasTag, stmtHasTag, exprHasTag]
    | block sp ss => simp [content_tag_expression_statement] at h
    | classDecl n ms => simp [content_tag_expression_statement] at h
    | varDecl n v => simp [content_tag_expression_statement] at h
  | importDecl d => simp [content_tag_expression_statement] at h
  | exportDefaultExpr sp e' => simp [content_tag_expression_statement] at h

/-- An occurrence-free item is not a bare content-tag statement. -/
theorem content_tag_expression_statement_of_noTag (item : ModuleItem)
    (h : itemHasTag item = false) : content_tag_expression_statement item = none := by
  cases hc : content_tag_expression_statement item with
  | none => rfl
  | some e => rw [content_tag_expression_statement_hasTag item e hc] at h; exact absurd h (by simp)

/-- A bare content-tag expression statement is not an import. -/
theorem content_tag_expression_statement_import (item : ModuleItem)
    (e : ContentTagExpression) (h : content_tag_expression_statement item = some e) :
    itemImport item = none := by
  cases item with
  | stmt s => simp [itemImport]
  | importDecl d => simp [content_tag_expression_statement] at h
  | exportDefaultExpr sp e' => simp [content_tag_expression_statement] at h

theorem promoteItems_id (tv : TransformVisitor) (items : List ModuleItem) (f : Bool)
    (h : itemsHasTag items = false) : promoteItems tv items f = (items, f) := by
  induction items generalizing f with
  | nil => simp [promoteItems]
  | cons item rest ih =>
    simp only [itemsHasTag, Bool.or_eq_false_iff] at h
    simp [promoteItems, content_tag_expression_statement_of_noTag item h.1, ih f h.2]

theorem promoteItems_flag_hasTag (tv : TransformVisitor) (items : List ModuleItem) (f : Bool) :
    ((promoteItems tv items f).2 || itemsHasTag (promoteItems tv items f).1)
      = (f || itemsHasTag items) := by
  induction items generalizing f with
  | nil => simp [promoteItems, itemsHasTag]
  | cons item rest ih =>
    cases hc : content_tag_expression_statement item with
    | some e =>
      have hitem := content_tag_expression_statement_hasTag item e hc
      have h2 := ih true
      simp only [Bool.true_or] at h2
      simp [promoteItems, hc, itemsHasTag, transform_tag_expression_hasTag tv e, hitem,
        Bool.or_eq_true] at h2 ⊢
      rcases h2 with h | h
      · exact Or.inl h
      · exact Or.inr (Or.inr h)
    | none =>
      have := ih f
      cases hA : itemHasTag item with
      | false => simpa [promoteItems, hc, itemsHasTag, hA] using this
      | true => simp [promoteItems, hc, itemsHasTag, hA, Bool.or_comm, Bool.or_assoc]

theorem promoteItems_importDecls (tv : TransformVisitor) (items : List ModuleItem) (f : Bool) :
    importDeclsOf (promoteItems tv items f).1 = importDeclsOf items := by
  induction items generalizing f with
  | nil => simp [promoteItems]
  | cons item rest ih =>
    cases hc : content_tag_expression_statement item with
    | some e =>
      have himp := content_tag_expression_statement_import item e hc
      have hexp : itemImport (ModuleItem.exportDefaultExpr e.span (transform_tag_expression tv e))
          = none := rfl
      simp [promoteItems, hc, importDeclsOf_cons, himp, hexp, ih true]
    | none =>
      simp [promoteItems, hc, importDeclsOf_cons, ih]

theorem visit_mut_module_items_flag (tv : TransformVisitor) (items : List ModuleItem)
    (f : Bool) : (visit_mut_module_items tv items f).2 = (f || itemsHasTag items) := by
  rw [← promoteItems_flag_hasTag tv items f]
  simp [visit_mut_module_items, visitModuleItemList_flag]

theorem visit_mut_module_items_noTags (tv : TransformVisitor) (items : List ModuleItem)
    (f : Bool) : itemsHasTag (visit_mut_module_items tv items f).1 = false := by
  simp [visit_mut_module_items, visitModuleItemList_noTags]

theorem visit_mut_module_items_id (tv : TransformVisitor) (items : List ModuleItem) (f : Bool)
    (h : itemsHasTag items = false) : visit_mut_module_items tv items f = (items, f) := by
  simp [visit_mut_module_items, promoteItems_id tv items f h, visitModuleItemList_id tv items f h]

theorem visit_mut_module_items_importDecls (tv : TransformVisitor) (items : List ModuleItem)
    (f : Bool) : importDeclsOf (visit_mut_module_items tv items f).1 = importDeclsOf items := by
  simp [visit_mut_module_items, visitModuleItemList_importDecls, promoteItems_importDecls]

/-! ### Import simplification -/

theorem simplify_specifier_localName (sp : ImportSpecifier) :
    specLocalName (simplify_specifier sp) = specLocalName sp := by
  cases sp with
  | named s =>
    cases h : s.imported with
    | none => simp [simplify_specifier, h, specLocalName]
    | some n =>
      cases n with
      | ident i =>
        by_cases hl : s.localName = i <;> simp [simplify_specifier, h, hl, specLocalName]
      | str v => simp [simplify_specifier, h, specLocalName]
  | defaultSpec l => simp [simplify_specifier, specLocalName]
  | namespaceSpec l => simp [simplify_specifier, specLocalName]

theorem simplify_specifier_importedName (sp : ImportSpecifier) :
    specImportedName (simplify_specifier sp) = specImportedName sp := by
  cases sp with
  | named s =>
    cases h : s.imported with
    | none => simp [simplify_specifier, h, specImportedName]
    | some n =>
      cases n with
      | ident i =>
        by_cases hl : s.localName = i <;> simp [simplify_specifier, h, hl, specImportedName]
      | str v => simp [simplify_specifier, h, specImportedName]
  | defaultSpec l => simp [simplify_specifier, specImportedName]
  | namespaceSpec l => simp [simplify_specifier, specImportedName]

theorem itemImport_simplify_item (item : ModuleItem) :
    itemImport (simplify_item item)
      = (itemImport item).map fun d => { d with specifiers := d.specifiers.map simplify_specifier } := by
  cases item with
  | stmt s => simp [simplify_item, itemImport]
  | importDecl d => simp [simplify_item, itemImport]
  | exportDefaultExpr sp e => simp [simplify_item, itemImport]

theorem importDeclsOf_map_simplify (items : List ModuleItem) :
    importDeclsOf (items.map simplify_item)
      = (importDeclsOf items).map fun d => { d with specifiers := d.specifiers.map simplify_specifier } := by
  induction items with
  | nil => simp [importDeclsOf]
  | cons item rest ih =>
    simp [importDeclsOf, List.filterMap_cons, itemImport_simplify_item item]
    cases itemImport item <;> simp_all [importDeclsOf]

theorem importBindingsOf_map_simplify (items : List ModuleItem) :
    importBindingsOf (items.map simplify_item) = importBindingsOf items := by
  simp [importBindingsOf, importDeclsOf_map_simplify, Function.comp,
    simplify_specifier_localName]

/-! ### The import lookup -/

theorem import_matches_eq_claimed (ts : String) (sp : ImportSpecifier) :
    import_matches ts sp
      = (if specImportedName sp = some ts then some (specLocalName sp) else none) := by
  cases sp with
  | named s =>
    cases h : s.imported with
    | none => simp [import_matches, specImportedName, specLocalName, h]
    | some n => cases n <;> simp [import_matches, specImportedName, specLocalName, h]
  | defaultSpec l => simp [import_matches, specImportedName]
  | namespaceSpec l => simp [import_matches, specImportedName]

theorem find_in_specifiers_eq_findSome (ts : String) (sps : List ImportSpecifier) :
    find_in_specifiers ts sps
      = sps.findSome? fun sp =>
          if specImportedName sp = some ts then some (specLocalName sp) else none := by
  induction sps with
  | nil => rfl
  | cons sp rest ih =>
    rw [find_in_specifiers, List.findSome?_cons, ← import_matches_eq_claimed ts sp, ih]
    cases import_matches ts sp <;> rfl

theorem findSomeOr {α β : Type} (f : α → Option β) (l₁ l₂ : List α) :
    (l₁ ++ l₂).findSome? f = ((l₁.findSome? f).or (l₂.findSome? f)) := by
  induction l₁ with
  | nil => simp
  | cons a l ih => cases h : f a <;> simp [List.findSome?_cons, h, ih]

theorem find_existing_import_items_eq_claimed (tm ts : String) (items : List ModuleItem) :
    find_existing_import_items tm ts items
      = (((importDeclsOf items).filter fun d => d.src = tm).flatMap
          fun d => d.specifiers).findSome?
          fun sp =>
            if specImportedName sp = some ts then some (specLocalName sp) else none := by
  induction items with
  | nil => rfl
  | cons item rest ih =>
    cases item with
    | importDecl d =>
      by_cases hsrc : d.src = tm
      · rw [find_existing_import_items, if_pos hsrc, find_in_specifiers_eq_findSome, ih]
        have hdecls : importDeclsOf (ModuleItem.importDecl d :: rest)
            = d :: importDeclsOf rest := by
          simp [importDeclsOf_cons, itemImport]
        rw [hdecls, List.filter_cons_of_pos (by simpa using hsrc), List.flatMap_cons,
          findSomeOr]
        cases d.specifiers.findSome? fun sp =>
            if specImportedName sp = some ts then some (specLocalName sp) else none <;>
          simp [Option.or]
      · rw [find_existing_import_items, if_neg hsrc, ih]
        have hdecls : importDeclsOf (ModuleItem.importDecl d :: rest)
            = d :: importDeclsOf rest := by
          simp [importDeclsOf_cons, itemImport]
        rw [hdecls, List.filter_cons_of_neg (by simpa using hsrc)]
    | stmt s =>
      have hstep : find_existing_import_items tm ts (ModuleItem.stmt s :: rest)
          = find_existing_import_items tm ts rest := rfl
      have hdecls : importDeclsOf (ModuleItem.stmt s :: rest) = importDeclsOf rest := by
        simp [importDeclsOf_cons, itemImport]
      rw [hstep, ih, hdecls]
    | exportDefaultExpr sp e =>
      have hstep : find_existing_import_items tm ts (ModuleItem.exportDefaultExpr sp e :: rest)
          = find_existing_import_items tm ts rest := rfl
      have hdecls : importDeclsOf (ModuleItem.exportDefaultExpr sp e :: rest)
          = importDeclsOf rest := by
        simp [importDeclsOf_cons, itemImport]
      rw [hstep, ih, hdecls]

theorem find_existing_import_eq_claimed (m : Module) (tm ts : String) :
    find_existing_import m tm ts = find_existing_import_claimed m tm ts :=
  find_existing_import_items_eq_claimed tm ts m.body

/-! ### The pipeline -/

theorem process_module_insert_case (opts : Options) (m : Module)
    (h : find_existing_import m "@ember/template-compiler" "template" = none)
    (ht : itemsHasTag m.body = true) :
    (process_module opts m).body
      = ModuleItem.importDecl
          { src := "@ember/template-compiler"
            specifiers := [ImportSpecifier.named
              { localName := "template", imported := none, isTypeOnly := false }]
            typeOnly := false }
        :: ((visit_mut_module_items
              { template_identifier := "template", options := opts } m.body false).1.map
              simplify_item) := by
  simp [process_module, h, private_ident, visit_mut_module_items_flag, ht, insert_import,
    simplify_imports, simplify_item, simplify_specifier]

theorem process_module_found_case (opts : Options) (m : Module) (loc : String)
    (h : find_existing_import m "@ember/template-compiler" "template" = some loc) :
    (process_module opts m).body
      = ((visit_mut_module_items
            { template_identifier := loc, options := opts } m.body false).1.map
          simplify_item) := by
  simp [process_module, h, simplify_imports]

theorem process_module_noTags_case (opts : Options) (m : Module)
    (ht : itemsHasTag m.body = false) :
    (process_module opts m).body = m.body.map simplify_item := by
  cases h : find_existing_import m "@ember/template-compiler" "template" with
  | none =>
    simp [process_module, h, private_ident, visit_mut_module_items_flag, ht,
      visit_mut_module_items_id _ m.body false ht, simplify_imports]
  | some loc =>
    simp [process_module, h, visit_mut_module_items_flag, ht,
      visit_mut_module_items_id _ m.body false ht, simplify_imports]

/-! # Claims -/

/-- C1: every expression-position occurrence is replaced by a call whose
callee is the resolved call-target identifier, whose first argument is the
content literal and whose second is a scope-capture object without a
`component` member; every class-member-position occurrence is replaced by a
static initializer block whose single statement is an expression-statement
call with the same callee and first argument, whose second argument
additionally carries the `component` member (the class bound in the
static-initializer context); and after the rewriter runs, no occurrence
remains anywhere in the tree (so every occurrence was replaced). -/
theorem c1_occurrence_rewrite_shapes (tv : TransformVisitor) (f : Bool)
    (cte : ContentTagExpression) (span : Span) (opening : TagDelim)
    (contents : ContentTagContent) (closing : TagDelim) (tagName tagType : String)
    (items : List ModuleItem) :
    (visitExpr tv (Expr.contentTagExpression cte) f
      = (Expr.call cte.span (Expr.ident tv.template_identifier)
          (ExprList.cons (content_literal tv cte.contents)
            (ExprList.cons (scope_params cte.closing.span) ExprList.nil)), true))
    ∧ ScopeMember.component ∉ scopeMembers (scope_params cte.closing.span)
    ∧ (visitClassMember tv
        (ClassMember.contentTagMember span opening contents closing tagName tagType) f
      = (ClassMember.staticBlock opening.span span
          (StmtList.cons (Stmt.exprStmt span
            (Expr.call span (Expr.ident tv.template_identifier)
              (ExprList.cons (content_literal tv contents)
                (ExprList.cons (scope_params_with_this closing.span) ExprList.nil))))
            StmtList.nil), true))
    ∧ ScopeMember.component ∈ scopeMembers (scope_params_with_this closing.span)
    ∧ itemsHasTag (visit_mut_module_items tv items f).1 = false := by
  refine ⟨?_, by simp [scope_params, scopeMembers], ?_,
    by simp [scope_params_with_this, scopeMembers],
    visit_mut_module_items_noTags tv items f⟩
  · simp [visitExpr, transform_tag_expression]
  · simp [visitClassMember]

/-- C2: the output module gains exactly one import declaration — inserted at
index 0, importing the target name bound to the allocated local identifier —
precisely when at least one occurrence was rewritten (the module contained
an occurrence) and no usable pre-existing import existed; in every other
case the number of import declarations is unchanged.  The head shown is the
final form after the alias-simplification pass collapses
`template as template` to the bare named import. -/
theorem c2_import_inserted_iff (opts : Options) (m : Module) :
    ((importDeclsOf (process_module opts m).body).length
      = (importDeclsOf m.body).length
        + (if find_existing_import m "@ember/template-compiler" "template" = none
              ∧ itemsHasTag m.body = true then 1 else 0))
    ∧ (find_existing_import m "@ember/template-compiler" "template" = none →
        itemsHasTag m.body = true →
        (process_module opts m).body.head?
          = some (ModuleItem.importDecl
              { src := "@ember/template-compiler"
                specifiers := [ImportSpecifier.named
                  { localName := "template", imported := none, isTypeOnly := false }]
                typeOnly := false })) := by
  constructor
  · cases hf : find_existing_import m "@ember/template-compiler" "template" with
    | none =>
      cases ht : itemsHasTag m.body with
      | true =>
        rw [process_module_insert_case opts m hf ht]
        simp [importDeclsOf_cons, itemImport, importDeclsOf_map_simplify,
          visit_mut_module_items_importDecls]
      | false =>
        rw [process_module_noTags_case opts m ht]
        simp [importDeclsOf_map_simplify]
    | some loc =>
      cases ht : itemsHasTag m.body with
      | true =>
        rw [process_module_found_case opts m loc hf]
        simp [importDeclsOf_map_simplify, visit_mut_module_items_importDecls]
      | false =>
        rw [process_module_noTags_case opts m ht]
        simp [importDeclsOf_map_simplify]
  · intro hf ht
    rw [process_module_insert_case opts m hf ht]
    rfl

/-- Witness for C2: a module consisting of a single bare occurrence and no
pre-existing import gains the inserted import at index 0. -/
theorem c2_import_inserted_iff_witness :
    (process_module { transformer := none } helloWorldModule).body.head?
      = some (ModuleItem.importDecl
          { src := "@ember/template-compiler"
            specifiers := [ImportSpecifier.named
              { localName := "template", imported := none, isTypeOnly := false }]
            typeOnly := false }) :=
  (c2_import_inserted_iff { transformer := none } helloWorldModule).2 rfl rfl

/-- C3: a module item that is exactly a bare expression statement whose
entire expression is a single expression-position occurrence is rewritten
into a default-export declaration wrapping the call; the promotion loop runs
before the generic recursive child visit; and a bare occurrence statement
nested inside an inner block is rewritten in place as an expression
statement, not promoted. -/
theorem c3_bare_top_level_promotion (tv : TransformVisitor) (sp bsp : Span)
    (cte : ContentTagExpression) (rest items : List ModuleItem) (f : Bool) :
    ((visit_mut_module_items tv
        (ModuleItem.stmt (Stmt.exprStmt sp (Expr.contentTagExpression cte)) :: rest) f).1.head?
      = some (ModuleItem.exportDefaultExpr cte.span (transform_tag_expression tv cte)))
    ∧ (visitStmt tv
        (Stmt.block bsp (StmtList.cons
          (Stmt.exprStmt sp (Expr.contentTagExpression cte)) StmtList.nil)) f
      = (Stmt.block bsp (StmtList.cons
          (Stmt.exprStmt sp (transform_tag_expression tv cte)) StmtList.nil), true))
    ∧ visit_mut_module_items tv items f
        = visitModuleItemList tv (promoteItems tv items f).1 (promoteItems tv items f).2 := by
  have hid := fun f' => visitExpr_id tv (transform_tag_expression tv cte) f'
    (transform_tag_expression_hasTag tv cte)
  refine ⟨?_, ?_, rfl⟩
  · simp [visit_mut_module_items, promoteItems, content_tag_expression_statement,
      visitModuleItemList, visitModuleItem, hid]
  · simp [visitStmt, visitStmtList, visitExpr]

/-- C5: with a pre-existing top-level import of the target name (aliased or
not, local name `loc`), the pipeline inserts no second import (the output is
exactly the simplified visit and the import-declaration count is unchanged),
the import bindings (source and local names) are untouched, and every
rewritten call site's callee is the existing local name `loc`. -/
theorem c5_preexisting_import_reused (opts : Options) (m : Module) (loc : String)
    (h : find_existing_import m "@ember/template-compiler" "template" = some loc) :
    ((process_module opts m).body
      = ((visit_mut_module_items
            { template_identifier := loc, options := opts } m.body false).1.map
          simplify_item))
    ∧ (importDeclsOf (process_module opts m).body).length = (importDeclsOf m.body).length
    ∧ importBindingsOf (process_module opts m).body = importBindingsOf m.body
    ∧ (∀ cte, calleeOf (transform_tag_expression
          { template_identifier := loc, options := opts } cte)
        = some (Expr.ident loc)) := by
  refine ⟨process_module_found_case opts m loc h, ?_, ?_, fun cte => rfl⟩
  · rw [process_module_found_case opts m loc h]
    simp [importDeclsOf_map_simplify, visit_mut_module_items_importDecls]
  · rw [process_module_found_case opts m loc h]
    rw [importBindingsOf_map_simplify]
    simp [importBindingsOf, visit_mut_module_items_importDecls]

/-- Witness for C5: a module with a pre-existing aliased import
`import { template as t } from "@ember/template-compiler"` and one
occurrence keeps its import bindings unchanged. -/
theorem c5_preexisting_import_reused_witness :
    importBindingsOf (process_module { transformer := none }
      ⟨[ModuleItem.importDecl
          { src := "@ember/template-compiler"
            specifiers := [ImportSpecifier.named
              { localName := "t"
                imported := some (ModuleExportName.ident "template")
                isTypeOnly := false }]
            typeOnly := false },
        ModuleItem.stmt (Stmt.exprStmt ⟨60, 93⟩ (Expr.contentTagExpression
          { span := ⟨60, 93⟩
            opening := ⟨⟨60, 70⟩⟩
            contents := { span := ⟨70, 82⟩, value := "Hello world!" }
            closing := ⟨⟨82, 93⟩⟩
            tagName := "template"
            tagType := "expression" }))]⟩).body
      = importBindingsOf
          [ModuleItem.importDecl
            { src := "@ember/template-compiler"
              specifiers := [ImportSpecifier.named
                { localName := "t"
                  imported := some (ModuleExportName.ident "template")
                  isTypeOnly := false }]
              typeOnly := false },
          ModuleItem.stmt (Stmt.exprStmt ⟨60, 93⟩ (Expr.contentTagExpression
            { span := ⟨60, 93⟩
              opening := ⟨⟨60, 70⟩⟩
              contents := { span := ⟨70, 82⟩, value := "Hello world!" }
              closing := ⟨⟨82, 93⟩⟩
              tagName := "template"
              tagType := "expression" }))] :=
  (c5_preexisting_import_reused { transformer := none }
    ⟨[ModuleItem.importDecl
        { src := "@ember/template-compiler"
          specifiers := [ImportSpecifier.named
            { localName := "t"
              imported := some (ModuleExportName.ident "template")
              isTypeOnly := false }]
          typeOnly := false },
      ModuleItem.stmt (Stmt.exprStmt ⟨60, 93⟩ (Expr.contentTagExpression
        { span := ⟨60, 93⟩
          opening := ⟨⟨60, 70⟩⟩
          contents := { span := ⟨70, 82⟩, value := "Hello world!" }
          closing := ⟨⟨82, 93⟩⟩
          tagName := "template"
          tagType := "expression" }))]⟩ "t" rfl).2.2.1

/-- C6: a configured content transformer runs exactly once on the raw
content and its output is what gets escaped into the content literal; with
no transformer the raw content is escaped unchanged; and a transformer that
fails to return text is a process-fatal outcome of the conversion wrapper,
not a recoverable value. -/
theorem c6_transformer_once_before_escaping (id : String) (t : String → String)
    (contents : ContentTagContent) (js : String → Option String) (s v : String) :
    (content_literal { template_identifier := id, options := { transformer := some t } }
        contents
      = Expr.tpl contents.span
          [{ span := contents.span, cooked := none,
             raw := escapeString (t contents.value), tail := false }])
    ∧ (content_literal { template_identifier := id, options := { transformer := none } }
        contents
      = Expr.tpl contents.span
          [{ span := contents.span, cooked := none,
             raw := escapeString contents.value, tail := false }])
    ∧ (js s = none → convert_js_transformer js s = TransformerResult.processFatal)
    ∧ (js s = some v → convert_js_transformer js s = TransformerResult.ok v) := by
  refine ⟨rfl, rfl, ?_, ?_⟩ <;> intro h <;> simp [convert_js_transformer, h]

/-- Witness for C6: a transformer that appends text is applied once before
escaping, and a callback returning no text is process-fatal. -/
theorem c6_transformer_once_before_escaping_witness :
    (content_literal
        { template_identifier := "template"
          options := { transformer := some fun s => s ++ "!" } }
        { span := ⟨0, 2⟩, value := "hi" }
      = Expr.tpl ⟨0, 2⟩
          [{ span := ⟨0, 2⟩, cooked := none, raw := "hi!", tail := false }])
    ∧ convert_js_transformer (fun _ => none) "x" = TransformerResult.processFatal :=
  ⟨(c6_transformer_once_before_escaping "template" (fun s => s ++ "!")
      { span := ⟨0, 2⟩, value := "hi" } (fun _ => none) "x" "y").1,
   (c6_transformer_once_before_escaping "template" (fun s => s ++ "!")
      { span := ⟨0, 2⟩, value := "hi" } (fun _ => none) "x" "y").2.2.1 rfl⟩

/-- C7: a tree containing no occurrence anywhere is returned unchanged with
the flag untouched (staying false when it started false); consequently a
second run of the rewriter over an already-rewritten tree — which contains
no remaining occurrences — is a no-op. -/
theorem c7_rewrite_no_op_and_idempotent (tv : TransformVisitor) (m : Module) (f : Bool)
    (items : List ModuleItem) (h : itemsHasTag m.body = false) :
    visit_mut_module_items tv m.body f = (m.body, f)
    ∧ visit_mut_module_items tv (visit_mut_module_items tv items false).1 false
        = ((visit_mut_module_items tv items false).1, false) :=
  ⟨visit_mut_module_items_id tv m.body f h,
   visit_mut_module_items_id tv _ false (visit_mut_module_items_noTags tv items false)⟩

/-- Witness for C7: a module with one plain statement and no occurrence is
unchanged, and re-running over the rewritten hello-world module is a no-op. -/
theorem c7_rewrite_no_op_and_idempotent_witness :
    visit_mut_module_items { template_identifier := "template", options := { transformer := none } }
      [ModuleItem.stmt (Stmt.exprStmt ⟨0, 5⟩ (Expr.ident "x"))] false
      = ([ModuleItem.stmt (Stmt.exprStmt ⟨0, 5⟩ (Expr.ident "x"))], false)
    ∧ visit_mut_module_items
        { template_identifier := "template", options := { transformer := none } }
        (visit_mut_module_items
          { template_identifier := "template", options := { transformer := none } }
          helloWorldModule.body false).1 false
      = ((visit_mut_module_items
            { template_identifier := "template", options := { transformer := none } }
            helloWorldModule.body false).1, false) :=
  c7_rewrite_no_op_and_idempotent
    { template_identifier := "template", options := { transformer := none } }
    ⟨[ModuleItem.stmt (Stmt.exprStmt ⟨0, 5⟩ (Expr.ident "x"))]⟩ false
    helloWorldModule.body rfl

/-- C8: for the input consisting solely of `<template>Hello world!</template>`,
the locate pass returns exactly one record, and that record's start offset
(0) is the position of the opening delimiter's first character
(`helloWorldModule`'s occurrence has its opening delimiter spanning offsets
0-10). -/
theorem c8_locate_hello_world :
    locate helloWorldModule
      = [{ start := 0, content_start := 10, content_end := 22, endOffset := 33,
           tag_name := "template", tag_type := "expression", content := "Hello world!" }]
    ∧ (locate helloWorldModule).length = 1
    ∧ ((locate helloWorldModule).map ContentTagInfo.start) = [0] := by
  refine ⟨rfl, rfl, rfl⟩

/-- C9: the import simplifier maps every module item, rewriting exactly the
named import specifiers whose explicit imported identifier equals their
local name into bare named imports, leaving every other specifier and every
non-import item unchanged, and preserving binding semantics: each
specifier's local name and effective imported name are identical before and
after. -/
theorem c9_simplify_imports_cosmetic (s : ImportNamedSpecifier) (i v l : String)
    (items : List ModuleItem) (d : ImportDecl) (item : ModuleItem) :
    (s.imported = some (ModuleExportName.ident i) → s.localName = i →
      simplify_specifier (ImportSpecifier.named s)
        = ImportSpecifier.named { s with imported := none })
    ∧ (s.imported = some (ModuleExportName.ident i) → s.localName ≠ i →
      simplify_specifier (ImportSpecifier.named s) = ImportSpecifier.named s)
    ∧ (s.imported = some (ModuleExportName.str v) →
      simplify_specifier (ImportSpecifier.named s) = ImportSpecifier.named s)
    ∧ (s.imported = none →
      simplify_specifier (ImportSpecifier.named s) = ImportSpecifier.named s)
    ∧ simplify_specifier (ImportSpecifier.defaultSpec l) = ImportSpecifier.defaultSpec l
    ∧ simplify_specifier (ImportSpecifier.namespaceSpec l) = ImportSpecifier.namespaceSpec l
    ∧ (∀ sp, specLocalName (simplify_specifier sp) = specLocalName sp)
    ∧ (∀ sp, specImportedName (simplify_specifier sp) = specImportedName sp)
    ∧ (simplify_imports ⟨items⟩).body = items.map simplify_item
    ∧ simplify_item (ModuleItem.importDecl d)
        = ModuleItem.importDecl { d with specifiers := d.specifiers.map simplify_specifier }
    ∧ (itemImport item = none → simplify_item item = item) := by
  refine ⟨?_, ?_, ?_, ?_, rfl, rfl, simplify_specifier_localName,
    simplify_specifier_importedName, rfl, rfl, ?_⟩
  · intro h hl; simp [simplify_specifier, h, hl]
  · intro h hl; simp [simplify_specifier, h, hl]
  · intro h; simp [simplify_specifier, h]
  · intro h; simp [simplify_specifier, h]
  · intro h
    cases item with
    | stmt s => rfl
    | importDecl d => simp [itemImport] at h
    | exportDefaultExpr sp e => rfl

/-- Witness for C9: the redundant alias `template as template` is dropped
and the alias `template as t` is kept. -/
theorem c9_simplify_imports_cosmetic_witness :
    (simplify_specifier (ImportSpecifier.named
        { localName := "template"
          imported := some (ModuleExportName.ident "template")
          isTypeOnly := false })
      = ImportSpecifier.named
          { localName := "template", imported := none, isTypeOnly := false })
    ∧ (simplify_specifier (ImportSpecifier.named
        { localName := "t"
          imported := some (ModuleExportName.ident "template")
          isTypeOnly := false })
      = ImportSpecifier.named
          { localName := "t"
            imported := some (ModuleExportName.ident "template")
            isTypeOnly := false })
    ∧ simplify_item (ModuleItem.stmt (Stmt.exprStmt ⟨0, 1⟩ (Expr.ident "x")))
        = ModuleItem.stmt (Stmt.exprStmt ⟨0, 1⟩ (Expr.ident "x")) :=
  ⟨(c9_simplify_imports_cosmetic
      { localName := "template"
        imported := some (ModuleExportName.ident "template")
        isTypeOnly := false } "template" "v" "l" [] { src := "m", specifiers := [], typeOnly := false }
      (ModuleItem.stmt (Stmt.exprStmt ⟨0, 1⟩ (Expr.ident "x")))).1 rfl rfl,
   (c9_simplify_imports_cosmetic
      { localName := "t"
        imported := some (ModuleExportName.ident "template")
        isTypeOnly := false } "template" "v" "l" [] { src := "m", specifiers := [], typeOnly := false }
      (ModuleItem.stmt (Stmt.exprStmt ⟨0, 1⟩ (Expr.ident "x")))).2.1 rfl (by decide),
   (c9_simplify_imports_cosmetic
      { localName := "t"
        imported := some (ModuleExportName.ident "template")
        isTypeOnly := false } "template" "v" "l" [] { src := "m", specifiers := [], typeOnly := false }
      (ModuleItem.stmt (Stmt.exprStmt ⟨0, 1⟩ (Expr.ident "x")))).2.2.2.2.2.2.2.2.2.2 rfl⟩

/-- C10: the import lookup scans the module body in document order over the
top-level import declarations whose source equals the target module and
returns the local name of the first named specifier whose effective
imported name (explicit identifier, explicit string, or the local name for
a shorthand specifier) equals the target name, returning nothing otherwise;
default and namespace specifiers never match. -/
theorem c10_find_existing_import_characterization (m : Module) (tm ts l : String)
    (s : ImportNamedSpecifier) :
    find_existing_import m tm ts = find_existing_import_claimed m tm ts
    ∧ import_matches ts (ImportSpecifier.defaultSpec l) = none
    ∧ import_matches ts (ImportSpecifier.namespaceSpec l) = none
    ∧ import_matches ts (ImportSpecifier.named s)
        = (if specImportedName (ImportSpecifier.named s) = some ts
           then some s.localName else none) := by
  refine ⟨find_existing_import_eq_claimed m tm ts, rfl, rfl, ?_⟩
  rw [import_matches_eq_claimed]
  rfl

end ContentTag
